import Mathlib

/-!
Shallow embedding of `tools/resharper-cleanupcode.py`: the changed-file to
cleanup-scope mapping and the per-solution orchestration around it.

Paths are plain strings, as in the Python source.  The `os.path` helpers are
modelled with their POSIX semantics (`os.sep = "/"`) over a filesystem without
symbolic links, so `os.path.realpath` is lexical normalization of an absolute
path.
-/

namespace CleanupCode

/-- Python `str.startswith(p)`: `p` is a prefix of `s`. -/
def strStartsWith (s p : String) : Bool := p.data.isPrefixOf s.data

/-- Python `str.endswith(p)`: `p` is a suffix of `s`. -/
def strEndsWith (s p : String) : Bool := p.data.reverse.isPrefixOf s.data.reverse

/-- Split a character list at every separator, keeping empty runs
(Python `str.split(sep)`). -/
def splitSep : List Char → List Char → List (List Char)
  | [], acc => [acc.reverse]
  | c :: cs, acc => if c = '/' then acc.reverse :: splitSep cs [] else splitSep cs (c :: acc)

/-- The nonempty components of a path string:
Python `[x for x in p.split(sep) if x]` as used by `posixpath.relpath`. -/
def pathComps (p : String) : List String :=
  ((splitSep p.data []).map fun cs => String.mk cs).filter fun c => c != ""

/-- `posixpath.normpath` component processing for an absolute path: `"."` is
dropped, `".."` pops the previous component and is dropped at the root. -/
def normAbs (comps : List String) : List String :=
  comps.foldl
    (fun acc c =>
      if c = "." then acc
      else if c = ".." then acc.dropLast
      else acc ++ [c])
    []

/-- Rebuild a relative path string from components, `"/"`-separated. -/
def joinComps : List String → String
  | [] => ""
  | [c] => c
  | c :: cs => c ++ "/" ++ joinComps cs

/-- `os.path.realpath` applied to an absolute path on a filesystem without
symbolic links: lexical normalization (posixpath semantics). -/
def realpath (p : String) : String := "/" ++ joinComps (normAbs (pathComps p))

/-- `posixpath.join` for two arguments. -/
def joinPath (a b : String) : String :=
  if strStartsWith b "/" then b
  else if a = "" || strEndsWith a "/" then a ++ b
  else a ++ "/" ++ b

/-- `posixpath.basename`: the part after the last separator. -/
def basename (p : String) : String :=
  String.mk ((p.data.reverse.takeWhile fun c => c != '/').reverse)

/-- `posixpath.dirname`: everything up to the last separator, with trailing
separators stripped unless the result consists only of separators. -/
def dirname (p : String) : String :=
  let headRev := p.data.reverse.dropWhile fun c => c != '/'
  if headRev.isEmpty || headRev.all fun c => c == '/' then String.mk headRev.reverse
  else String.mk ((headRev.dropWhile fun c => c == '/').reverse)

/-- Length of the longest common prefix of two component lists
(`os.path.commonprefix` on the pair of lists). -/
def commonPrefixLen : List String → List String → Nat
  | a :: as, b :: bs => if a = b then commonPrefixLen as bs + 1 else 0
  | _, _ => 0

/-- `posixpath.relpath(path, start)` for absolute arguments (the internal
`abspath` calls reduce to normalization since both are already absolute). -/
def relpath (path start : String) : String :=
  let p := normAbs (pathComps path)
  let s := normAbs (pathComps start)
  let i := commonPrefixLen s p
  let rel := List.replicate (s.length - i) ".." ++ p.drop i
  if rel.isEmpty then "." else joinComps rel

/-- Per-solution ownership policy for changed files whose computed relative
path starts with `".."`, as implemented by the inline conditionals of the
changed-file loop: either drop every such file, or keep exactly those whose
absolute path has the stored subtree folder (trailing separator included) as a
string prefix. -/
inductive OwnershipPolicy where
  | excludeForeign
  | includeSubtree (subtreeWithSep : String)
deriving DecidableEq

/-- Result of scope resolution for one solution, per the Scope Resolver
contract. -/
inductive ScopeResult where
  | All
  | Skip
  | Include (arg : String)
deriving DecidableEq

/-- `os.path.realpath(os.path.join(repositoryRoot, changedFile))`. -/
def absoluteChangedFile (repositoryRoot changedFile : String) : String :=
  realpath (joinPath repositoryRoot changedFile)

/-- Body of the changed-file loop for one file: `some entry` to append to the
accumulating argument, or `none` when the file is dropped (`continue`).  A file
whose path relative to the solution directory starts with `".."` goes through
the ownership policy; a kept foreign file becomes the pattern
`"**" + os.sep + basename`. -/
def scopeEntry (repositoryRoot solutionDir : String) (policy : OwnershipPolicy)
    (changedFile : String) : Option String :=
  let absFile := absoluteChangedFile repositoryRoot changedFile
  let rel := relpath absFile solutionDir
  if strStartsWith rel ".." then
    match policy with
    | .excludeForeign => none
    | .includeSubtree sub =>
        if strStartsWith absFile sub then some ("**/" ++ basename absFile) else none
  else
    some rel

/-- The accumulated cleanup argument for a non-empty changed-file list: the
string starts as `"--include="` and the loop appends `";" + entry` for every
kept file. -/
def cleanupArg (repositoryRoot solutionDir : String) (policy : OwnershipPolicy)
    (changedFiles : List String) : String :=
  changedFiles.foldl
    (fun acc f =>
      match scopeEntry repositoryRoot solutionDir policy f with
      | some e => acc ++ ";" ++ e
      | none => acc)
    "--include="

/-- The kept entries in order: the accumulated-list view of the loop used by
the specification. -/
def qualifyingEntries (repositoryRoot solutionDir : String) (policy : OwnershipPolicy)
    (changedFiles : List String) : List String :=
  changedFiles.filterMap (scopeEntry repositoryRoot solutionDir policy)

/-- Semicolon rendering of an entry list: every entry, the first included, is
preceded by one `";"`. -/
def entriesString : List String → String
  | [] => ""
  | e :: es => ";" ++ e ++ entriesString es

/-- `resolve_scope` of the Scope Resolver contract, read off the code: an
empty changed-file list gives `All` (no `--include` argument is built at all);
otherwise the solution is skipped exactly when the accumulated argument still
ends in `'='`, i.e. the loop appended nothing. -/
def resolve_scope (repositoryRoot solutionDir : String) (policy : OwnershipPolicy)
    (changedFiles : List String) : ScopeResult :=
  if changedFiles.isEmpty then .All
  else
    let arg := cleanupArg repositoryRoot solutionDir policy changedFiles
    if strEndsWith arg "=" then .Skip else .Include arg

/-- The three configured solution files, relative to the repository root. -/
def solutionFiles : List String :=
  ["src/NuGetForUnity.Tests/NuGetForUnity.Tests.sln",
   "src/NuGetForUnity.Cli/NuGetForUnity.Cli.sln",
   "src/NuGetForUnity.PluginAPI/NuGetForUnity.PluginAPI.sln"]

/-- `os.path.realpath(os.path.join(repositoryRoot, "src/NuGetForUnity")) + os.sep`. -/
def mainPackageFolder (repositoryRoot : String) : String :=
  realpath (joinPath repositoryRoot "src/NuGetForUnity") ++ "/"

/-- `os.path.realpath(os.path.join(repositoryRoot, "src/NuGetForUnity.Cli.Tests")) + os.sep`. -/
def cliTestsProjectFolder (repositoryRoot : String) : String :=
  realpath (joinPath repositoryRoot "src/NuGetForUnity.Cli.Tests") ++ "/"

/-- The suffix dispatch of the changed-file loop, as an ownership policy per
solution file: the CLI solution keeps foreign files under
`src/NuGetForUnity.Cli.Tests`, the PluginAPI solution drops all foreign files,
and the remaining (Tests) solution keeps foreign files under
`src/NuGetForUnity`. -/
def solutionPolicy (repositoryRoot solutionFile : String) : OwnershipPolicy :=
  if strEndsWith solutionFile "NuGetForUnity.Cli.sln" then
    .includeSubtree (cliTestsProjectFolder repositoryRoot)
  else if strEndsWith solutionFile "NuGetForUnity.PluginAPI.sln" then
    .excludeForeign
  else
    .includeSubtree (mainPackageFolder repositoryRoot)

/-- Outcome of one iteration of the solution loop. -/
inductive SolutionOutcome where
  | skipped
  | fatalConfigError (solutionFile : String)
  | ran (cleanupArgString : String)
deriving DecidableEq

/-- One iteration of the solution loop: resolve the solution file, compute the
scope, `continue` when the scope is empty, then check the solution file exists
(`sys.exit` otherwise), and finally run build and cleanup with the computed
argument (`""` when no changed files were supplied). -/
def processSolution (repositoryRoot solutionFileRel : String) (changedFiles : List String)
    (isFile : String → Bool) : SolutionOutcome :=
  let solutionFile := realpath (joinPath repositoryRoot solutionFileRel)
  let solutionDir := dirname solutionFile
  let policy := solutionPolicy repositoryRoot solutionFile
  match resolve_scope repositoryRoot solutionDir policy changedFiles with
  | .Skip => .skipped
  | .All => if isFile solutionFile then .ran "" else .fatalConfigError solutionFile
  | .Include arg => if isFile solutionFile then .ran arg else .fatalConfigError solutionFile

theorem strExt {a b : String} (h : a.data = b.data) : a = b :=
  congrArg String.mk h

theorem strData_append (a b : String) : (a ++ b).data = a.data ++ b.data := by
  cases a
  cases b
  rfl

theorem strAppend_assoc (a b c : String) : a ++ b ++ c = a ++ (b ++ c) :=
  strExt (by simp [strData_append])

theorem strAppend_empty (a : String) : a ++ "" = a :=
  strExt (by simp [strData_append])

theorem glob_not_dotdot (x : String) : strStartsWith ("**/" ++ x) ".." = false := by
  have hd : ("**/" ++ x).data = '*' :: '*' :: '/' :: x.data := by
    rw [strData_append]
    rfl
  simp [strStartsWith, hd, List.isPrefixOf]

/-- The accumulating loop as a pure append: starting from any accumulator, the
fold appends one `";" ++ entry` block per kept file, in input order. -/
theorem cleanupArg_foldl (root sdir : String) (pol : OwnershipPolicy)
    (files : List String) (acc : String) :
    files.foldl
      (fun acc f =>
        match scopeEntry root sdir pol f with
        | some e => acc ++ ";" ++ e
        | none => acc)
      acc
    = acc ++ entriesString (qualifyingEntries root sdir pol files) := by
  induction files generalizing acc with
  | nil => simp [qualifyingEntries, entriesString, strAppend_empty]
  | cons f fs ih =>
      cases h : scopeEntry root sdir pol f with
      | none =>
          simp [qualifyingEntries, List.filterMap_cons, h] at ih ⊢
          exact ih acc
      | some e =>
          simp [qualifyingEntries, List.filterMap_cons, h, entriesString] at ih ⊢
          rw [ih (acc ++ ";" ++ e)]
          simp [strAppend_assoc]

/-- Claim C1 (counterexample): at the spec scenario (repositoryRoot `/repo`,
solutionDir `/repo/src/A`, changedFiles `[src/A/Foo.cs, src/B/Bar.cs]`, policy
dropping all foreign files) the scope string is `--include=;Foo.cs`, not the
claimed `--include=Foo.cs`: a semicolon is appended before every entry,
including the first, so a stray semicolon follows the prefix. -/
theorem cleanupArg_scenario_counterexample :
    cleanupArg "/repo" "/repo/src/A" .excludeForeign ["src/A/Foo.cs", "src/B/Bar.cs"]
        = "--include=;Foo.cs"
    ∧ cleanupArg "/repo" "/repo/src/A" .excludeForeign ["src/A/Foo.cs", "src/B/Bar.cs"]
        ≠ "--include=Foo.cs" := by
  constructor <;> decide

/-- Claim C1 (corrected): for every repository root, solution directory,
policy and changed-file list, the scope string is the fixed prefix
`--include=` followed by one `;entry` block per qualifying file, in input
order — so a semicolon precedes every entry, the first included.  At the spec
scenario this yields `--include=;Foo.cs`. -/
theorem cleanupArg_entries_shape :
    (∀ (root sdir : String) (pol : OwnershipPolicy) (files : List String),
        cleanupArg root sdir pol files
          = "--include=" ++ entriesString (qualifyingEntries root sdir pol files))
    ∧ cleanupArg "/repo" "/repo/src/A" .excludeForeign ["src/A/Foo.cs", "src/B/Bar.cs"]
        = "--include=;Foo.cs" := by
  constructor
  · intro root sdir pol files
    exact cleanupArg_foldl root sdir pol files "--include="
  · decide

/-- Claim C2 (confirmed): a kept scope entry never begins with `..`, and every
changed file classified as escaping the solution directory (its computed
relative path starts with `..`, which covers every file genuinely outside the
directory) that the ownership policy keeps is rewritten to the basename-glob
form `**/<basename>` before being appended. -/
theorem scope_entries_never_dotdot (root sdir : String) (pol : OwnershipPolicy)
    (f e : String) (h : scopeEntry root sdir pol f = some e) :
    strStartsWith e ".." = false
    ∧ (strStartsWith (relpath (absoluteChangedFile root f) sdir) ".." = true →
        e = "**/" ++ basename (absoluteChangedFile root f)) := by
  cases hr : strStartsWith (relpath (absoluteChangedFile root f) sdir) ".." with
  | true =>
      cases pol with
      | excludeForeign => simp [scopeEntry, hr] at h
      | includeSubtree sub =>
          cases hs : strStartsWith (absoluteChangedFile root f) sub with
          | false => simp [scopeEntry, hr, hs] at h
          | true =>
              simp [scopeEntry, hr, hs] at h
              subst h
              exact ⟨glob_not_dotdot _, fun _ => rfl⟩
  | false =>
      simp [scopeEntry, hr] at h
      subst h
      exact ⟨hr, fun hc => by simp [hr] at hc⟩

/-- Claim C2 witness: instantiated at the Tests solution with the changed file
`src/NuGetForUnity/Core.cs`, whose kept entry is `**/Core.cs`. -/
theorem scope_entries_never_dotdot_witness :
    strStartsWith "**/Core.cs" ".." = false
    ∧ "**/Core.cs"
        = "**/" ++ basename (absoluteChangedFile "/repo" "src/NuGetForUnity/Core.cs") := by
  have h := scope_entries_never_dotdot "/repo" "/repo/src/NuGetForUnity.Tests"
    (.includeSubtree (mainPackageFolder "/repo")) "src/NuGetForUnity/Core.cs" "**/Core.cs"
    (by decide)
  exact ⟨h.1, h.2 (by decide)⟩

/-- Claim C3 (confirmed): a changed file classified as outside the solution
directory contributes no entry under the exclude-all-foreign policy; and for a
non-empty changed-file list with no qualifying file, the scope resolves to
`Skip` and the solution-loop iteration ends as `skipped`, so the build and
cleanup invocations do not happen for that solution. -/
theorem foreign_dropped_and_skip :
    (∀ (root sdir f : String),
        strStartsWith (relpath (absoluteChangedFile root f) sdir) ".." = true →
        scopeEntry root sdir .excludeForeign f = none)
    ∧ (∀ (root sdir : String) (pol : OwnershipPolicy) (files : List String),
        files ≠ [] →
        qualifyingEntries root sdir pol files = [] →
        resolve_scope root sdir pol files = .Skip)
    ∧ (∀ (root relSol : String) (files : List String) (isF : String → Bool),
        files ≠ [] →
        qualifyingEntries root (dirname (realpath (joinPath root relSol)))
            (solutionPolicy root (realpath (joinPath root relSol))) files = [] →
        processSolution root relSol files isF = .skipped) := by
  have hskip : ∀ (root sdir : String) (pol : OwnershipPolicy) (files : List String),
      files ≠ [] → qualifyingEntries root sdir pol files = [] →
      resolve_scope root sdir pol files = .Skip := by
    intro root sdir pol files hne hq
    have harg : cleanupArg root sdir pol files = "--include=" := by
      have hf := cleanupArg_foldl root sdir pol files "--include="
      rw [hq] at hf
      simpa [entriesString, strAppend_empty] using hf
    have hend : strEndsWith "--include=" "=" = true := by decide
    cases files with
    | nil => exact absurd rfl hne
    | cons f fs => simp [resolve_scope, harg, hend]
  refine ⟨?_, hskip, ?_⟩
  · intro root sdir f h
    simp [scopeEntry, h]
  · intro root relSol files isF hne hq
    have h2 := hskip root (dirname (realpath (joinPath root relSol)))
      (solutionPolicy root (realpath (joinPath root relSol))) files hne hq
    simp [processSolution, h2]

/-- Claim C3 witness: `src/B/Bar.cs` is dropped for solution directory
`/repo/src/A` under the exclude-all-foreign policy; as the only changed file
the scope is `Skip`; and the PluginAPI solution iteration is `skipped` for the
foreign file `src/Other/Qux.cs` even though the solution file exists. -/
theorem foreign_dropped_and_skip_witness :
    scopeEntry "/repo" "/repo/src/A" .excludeForeign "src/B/Bar.cs" = none
    ∧ resolve_scope "/repo" "/repo/src/A" .excludeForeign ["src/B/Bar.cs"] = .Skip
    ∧ processSolution "/repo" "src/NuGetForUnity.PluginAPI/NuGetForUnity.PluginAPI.sln"
        ["src/Other/Qux.cs"] (fun _ => true) = .skipped :=
  ⟨foreign_dropped_and_skip.1 "/repo" "/repo/src/A" "src/B/Bar.cs" (by decide),
   foreign_dropped_and_skip.2.1 "/repo" "/repo/src/A" .excludeForeign ["src/B/Bar.cs"]
     (by decide) (by decide),
   foreign_dropped_and_skip.2.2 "/repo"
     "src/NuGetForUnity.PluginAPI/NuGetForUnity.PluginAPI.sln"
     ["src/Other/Qux.cs"] (fun _ => true) (by decide) (by decide)⟩

/-- Claim C4 (counterexample): the PluginAPI solution file does not exist
(`isFile` is constantly false), yet with changed-file list `[src/Other/Qux.cs]`
the scope is empty and the iteration ends as `skipped` — no fatal configuration
diagnostic is raised, because the existence check runs after the skip branch. -/
theorem missing_solution_counterexample :
    processSolution "/repo" "src/NuGetForUnity.PluginAPI/NuGetForUnity.PluginAPI.sln"
        ["src/Other/Qux.cs"] (fun _ => false) = .skipped
    ∧ processSolution "/repo" "src/NuGetForUnity.PluginAPI/NuGetForUnity.PluginAPI.sln"
        ["src/Other/Qux.cs"] (fun _ => false)
        ≠ .fatalConfigError "/repo/src/NuGetForUnity.PluginAPI/NuGetForUnity.PluginAPI.sln" := by
  constructor <;> decide

/-- Claim C4 (corrected): when the solution file does not exist, the iteration
reports the fatal configuration error exactly when the resolved scope is not
`Skip`; when the scope is `Skip` the solution is skipped without the existence
check ever running. -/
theorem missing_solution_check_order (root relSol : String) (files : List String)
    (isF : String → Bool)
    (h : isF (realpath (joinPath root relSol)) = false) :
    (resolve_scope root (dirname (realpath (joinPath root relSol)))
        (solutionPolicy root (realpath (joinPath root relSol))) files ≠ .Skip →
      processSolution root relSol files isF
        = .fatalConfigError (realpath (joinPath root relSol)))
    ∧ (resolve_scope root (dirname (realpath (joinPath root relSol)))
        (solutionPolicy root (realpath (joinPath root relSol))) files = .Skip →
      processSolution root relSol files isF = .skipped) := by
  constructor
  · intro hns
    cases hrs : resolve_scope root (dirname (realpath (joinPath root relSol)))
        (solutionPolicy root (realpath (joinPath root relSol))) files with
    | Skip => exact absurd hrs hns
    | All => simp [processSolution, hrs, h]
    | Include arg => simp [processSolution, hrs, h]
  · intro hrs
    simp [processSolution, hrs]

/-- Claim C4 witness: a missing PluginAPI solution file together with a
changed file the solution owns produces the fatal configuration error. -/
theorem missing_solution_check_order_witness :
    processSolution "/repo" "src/NuGetForUnity.PluginAPI/NuGetForUnity.PluginAPI.sln"
      ["src/NuGetForUnity.PluginAPI/X.cs"] (fun _ => false)
      = .fatalConfigError "/repo/src/NuGetForUnity.PluginAPI/NuGetForUnity.PluginAPI.sln" := by
  have h := (missing_solution_check_order "/repo"
    "src/NuGetForUnity.PluginAPI/NuGetForUnity.PluginAPI.sln"
    ["src/NuGetForUnity.PluginAPI/X.cs"] (fun _ => false) rfl).1 (by decide)
  exact h.trans (by decide)

/-- Claim C5 (confirmed): an empty changed-file list resolves to `All` for
every solution directory and policy, and the solution loop then runs build and
cleanup with no `--include` restriction (an empty cleanup argument), provided
the solution file exists. -/
theorem empty_changedFiles_all :
    (∀ (root sdir : String) (pol : OwnershipPolicy),
        resolve_scope root sdir pol [] = .All)
    ∧ (∀ (root relSol : String) (isF : String → Bool),
        isF (realpath (joinPath root relSol)) = true →
        processSolution root relSol [] isF = .ran "") := by
  have hall : ∀ (root sdir : String) (pol : OwnershipPolicy),
      resolve_scope root sdir pol ([] : List String) = .All := fun _ _ _ => rfl
  refine ⟨hall, ?_⟩
  intro root relSol isF h
  simp [processSolution, hall, h]

/-- Claim C5 witness: the Tests solution with no changed files runs with an
empty cleanup argument. -/
theorem empty_changedFiles_all_witness :
    processSolution "/repo" "src/NuGetForUnity.Tests/NuGetForUnity.Tests.sln" []
      (fun _ => true) = .ran "" :=
  empty_changedFiles_all.2 "/repo" "src/NuGetForUnity.Tests/NuGetForUnity.Tests.sln"
    (fun _ => true) rfl

/-- Claim C6 (counterexample): the changed file `src/A/..Foo.cs` resolves to
`/repo/src/A/..Foo.cs`, which lies inside the solution directory
`/repo/src/A`, yet its entry is not the exact relative path `..Foo.cs`: the
relative path starts with the characters `..`, so the file goes through the
ownership-policy fallback and is dropped under the exclude-all-foreign
policy. -/
theorem inside_dir_exact_relative_counterexample :
    strStartsWith (absoluteChangedFile "/repo" "src/A/..Foo.cs") "/repo/src/A/" = true
    ∧ relpath (absoluteChangedFile "/repo" "src/A/..Foo.cs") "/repo/src/A" = "..Foo.cs"
    ∧ scopeEntry "/repo" "/repo/src/A" .excludeForeign "src/A/..Foo.cs"
        ≠ some (relpath (absoluteChangedFile "/repo" "src/A/..Foo.cs") "/repo/src/A")
    ∧ scopeEntry "/repo" "/repo/src/A" .excludeForeign "src/A/..Foo.cs" = none := by
  refine ⟨by decide, by decide, by decide, by decide⟩

/-- Claim C6 (corrected): for every changed file whose path relative to the
solution directory does not begin with the two characters `..` — which holds
for every inside file except those whose relative path starts with a component
like `..Foo.cs` — the appended entry is exactly that relative path, under
every ownership policy, with no fallback substitution. -/
theorem inside_dir_exact_relative (root sdir : String) (pol : OwnershipPolicy)
    (f : String)
    (h : strStartsWith (relpath (absoluteChangedFile root f) sdir) ".." = false) :
    scopeEntry root sdir pol f = some (relpath (absoluteChangedFile root f) sdir) := by
  simp [scopeEntry, h]

/-- Claim C6 witness: `src/A/Foo.cs` against solution directory `/repo/src/A`
is kept as its exact relative path. -/
theorem inside_dir_exact_relative_witness :
    scopeEntry "/repo" "/repo/src/A" .excludeForeign "src/A/Foo.cs"
      = some (relpath (absoluteChangedFile "/repo" "src/A/Foo.cs") "/repo/src/A") :=
  inside_dir_exact_relative "/repo" "/repo/src/A" .excludeForeign "src/A/Foo.cs" (by decide)

/-- Claim C7 (counterexample): the already-absolute input `/src/../Foo.cs`
passes through the join unchanged, but the resolution step normalizes it to
`/Foo.cs`, so the resolved absolute path differs from the input. -/
theorem absolute_input_resolution_counterexample :
    joinPath "/repo" "/src/../Foo.cs" = "/src/../Foo.cs"
    ∧ absoluteChangedFile "/repo" "/src/../Foo.cs" = "/Foo.cs"
    ∧ absoluteChangedFile "/repo" "/src/../Foo.cs" ≠ "/src/../Foo.cs" := by
  refine ⟨by decide, by decide, by decide⟩

/-- Claim C7 (corrected): joining with the repository root leaves an
already-absolute input unchanged, and the resolved absolute path is therefore
the normalization of the input itself, independent of the repository root — it
equals the input exactly when the input is already in normalized form. -/
theorem absolute_input_resolution (root p : String)
    (h : strStartsWith p "/" = true) :
    joinPath root p = p ∧ absoluteChangedFile root p = realpath p := by
  have hj : joinPath root p = p := by simp [joinPath, h]
  exact ⟨hj, by rw [absoluteChangedFile, hj]⟩

/-- Claim C7 witness: instantiated at the normalized absolute input
`/abs/Foo.cs`, which the whole resolution step maps to itself. -/
theorem absolute_input_resolution_witness :
    (joinPath "/repo" "/abs/Foo.cs" = "/abs/Foo.cs"
      ∧ absoluteChangedFile "/repo" "/abs/Foo.cs" = realpath "/abs/Foo.cs")
    ∧ realpath "/abs/Foo.cs" = "/abs/Foo.cs" :=
  ⟨absolute_input_resolution "/repo" "/abs/Foo.cs" (by decide), by decide⟩

/-- Claim C8 (confirmed): scope resolution is a total function and its result
is always one of `All`, `Skip`, or `Include` of some string, for every
repository root, solution directory, ownership policy, and changed-file
list. -/
theorem resolve_scope_total (root sdir : String) (pol : OwnershipPolicy)
    (files : List String) :
    resolve_scope root sdir pol files = .All
    ∨ resolve_scope root sdir pol files = .Skip
    ∨ ∃ s, resolve_scope root sdir pol files = .Include s := by
  unfold resolve_scope
  cases he : files.isEmpty with
  | true => simp [he]
  | false =>
      cases hs : strEndsWith (cleanupArg root sdir pol files) "=" with
      | true => simp [he, hs]
      | false => simp [he, hs]

/-- Claim C9 (confirmed): the changed file `src/A/..Foo.cs` resolves inside
the solution directory `/repo/src/A`, yet its relative path `..Foo.cs` starts
with the characters `..`, so the loop classifies it as out-of-tree: the
exclude-all-foreign policy drops it, and a subtree policy covering it keeps it
only as the glob `**/..Foo.cs` rather than as its exact relative path. -/
theorem dotdot_name_classified_foreign :
    strStartsWith (absoluteChangedFile "/repo" "src/A/..Foo.cs") "/repo/src/A/" = true
    ∧ relpath (absoluteChangedFile "/repo" "src/A/..Foo.cs") "/repo/src/A" = "..Foo.cs"
    ∧ strStartsWith "..Foo.cs" ".." = true
    ∧ scopeEntry "/repo" "/repo/src/A" .excludeForeign "src/A/..Foo.cs" = none
    ∧ scopeEntry "/repo" "/repo/src/A" (.includeSubtree "/repo/src/A/") "src/A/..Foo.cs"
        = some "**/..Foo.cs" := by
  refine ⟨by decide, by decide, by decide, by decide, by decide⟩

/-- Claim C10 (confirmed): under a subtree policy, an out-of-tree changed file
is dropped exactly when the stored subtree folder string (trailing separator
included) is not a string prefix of the file's absolute path; the CLI
solution's subtree constant is `/repo/src/NuGetForUnity.Cli.Tests/`, so a file
in the sibling directory `src/NuGetForUnity.Cli.TestsExtra` is dropped while
one in `src/NuGetForUnity.Cli.Tests` is kept. -/
theorem subtree_string_membership :
    (∀ (root sdir sub f : String),
        strStartsWith (relpath (absoluteChangedFile root f) sdir) ".." = true →
        (scopeEntry root sdir (.includeSubtree sub) f = none
          ↔ strStartsWith (absoluteChangedFile root f) sub = false))
    ∧ cliTestsProjectFolder "/repo" = "/repo/src/NuGetForUnity.Cli.Tests/"
    ∧ scopeEntry "/repo" "/repo/src/NuGetForUnity.Cli"
        (solutionPolicy "/repo" "/repo/src/NuGetForUnity.Cli/NuGetForUnity.Cli.sln")
        "src/NuGetForUnity.Cli.TestsExtra/Foo.cs" = none
    ∧ scopeEntry "/repo" "/repo/src/NuGetForUnity.Cli"
        (solutionPolicy "/repo" "/repo/src/NuGetForUnity.Cli/NuGetForUnity.Cli.sln")
        "src/NuGetForUnity.Cli.Tests/Foo.cs" = some "**/Foo.cs" := by
  refine ⟨?_, by decide, by decide, by decide⟩
  intro root sdir sub f h
  cases hs : strStartsWith (absoluteChangedFile root f) sub with
  | true => simp [scopeEntry, h, hs]
  | false => simp [scopeEntry, h, hs]

/-- Claim C10 witness: `src/Other/Qux.cs` is out-of-tree for the CLI solution
and not under the stored subtree folder, hence dropped. -/
theorem subtree_string_membership_witness :
    scopeEntry "/repo" "/repo/src/NuGetForUnity.Cli"
      (.includeSubtree (cliTestsProjectFolder "/repo")) "src/Other/Qux.cs" = none :=
  (subtree_string_membership.1 "/repo" "/repo/src/NuGetForUnity.Cli"
    (cliTestsProjectFolder "/repo") "src/Other/Qux.cs" (by decide)).mpr (by decide)

end CleanupCode
